import Mathlib

/-!
Shallow embedding of the iocraft component-tree core, translated from:
  - src/packages/iocraft/src/handler.rs        (the Handler type)
  - src/packages/io/src/components/text.rs     (the Text leaf component)
  - src/packages/iocraft-macros/src/lib.rs     (the element and component expansions)

Rust FnMut closures are modelled as explicit state machines: a closure is a
state value of some type C, and running it on an argument applies a step
function `step : C → T → C` that returns the next closure state.  Every call
to a stored callable is recorded as a CallEvent, so that "the callable was
invoked with value v" is observable in the model.
-/

namespace Iocraft

/-! ## Handler — src/packages/iocraft/src/handler.rs

In Rust, `Handler<T>` is an enum with variants `None` and
`Function(Box<dyn FnMut(T) + Send>)`, deriving Default with the default
variant being `None`.  The boxed FnMut is modelled by a closure-state type C.
-/

inductive Handler (C : Type) (T : Type) where
  /-- No handler is set (the `None` variant). -/
  | none
  /-- A function handler (the `Function` variant), holding the closure state. -/
  | function (f : C)

/-- One call of a stored callable: the closure state at call time and the
argument it received. -/
structure CallEvent (C : Type) (T : Type) where
  callee : C
  arg : T

/-- Rust derive(Default) with the default attribute on the `None` variant:
the default-constructed handler is `None`. -/
def Handler.default (C T : Type) : Handler C T :=
  Handler.none

/-- `pub fn is_none(&self) -> bool { matches!(self, Self::None) }` -/
def Handler.is_none {C T : Type} : Handler C T → Bool
  | .none => true
  | .function _ => false

/-- `pub fn take(&mut self) -> Self { std::mem::take(self) }`.
`mem::take` returns the old contents and leaves `Default::default()` (that is,
`None`) in the slot.  The result pair is (returned value, value left in the
slot). -/
def Handler.take {C T : Type} (h : Handler C T) : Handler C T × Handler C T :=
  (h, Handler.none)

/-- `pub fn invoke(&mut self, value: T)`: `Function(f) => f(value)`
(the FnMut closure runs, advancing its captured state by `step`),
`None => {}`.  The result pair is (handler after the call, list of calls made
to the stored callable during this invocation). -/
def Handler.invoke {C T : Type} (step : C → T → C) :
    Handler C T → T → Handler C T × List (CallEvent C T)
  | .function f, v => (.function (step f v), [⟨f, v⟩])
  | .none, _ => (.none, [])

/-- `impl From<F> for Handler`: `fn from(f: F) -> Self { Self::Function(Box::new(f)) }`.
A pure conversion: the closure f is stored as-is, with no call made to it. -/
def Handler.fromFn {C T : Type} (f : C) : Handler C T :=
  Handler.function f

/-- A concrete closure step function used to instantiate theorems about
handlers at a concrete type: the closure state is a Nat that never changes. -/
def idStep (c : Nat) (_v : Nat) : Nat := c

/-! ## The element expansion — src/packages/iocraft-macros/src/lib.rs

`ToTokens for ParsedElement` (lines 71 to 121) emits the code

    type Props<..> = <Ty as ElementType>::Props<..>;
    let mut _iocraft_element = Element::<Ty> {
        key: core::default::Default::default(),
        props: Props { (converted supplied fields,) ..Default::default() },
    };
    extend_with_elements(&mut _iocraft_element.props.children, child); (per child)
    _iocraft_element

The embedding evaluates that emitted code.  A property expression is either
an integer literal with a suffix, a float literal with a suffix, or any other
expression (abstracted by a numeric code); float literal values are kept as
an integer mantissa with a decimal scale. -/

inductive PropExpr where
  | litInt (value : Int) (suffix : String)
  | litFloat (value : Int) (scale : Nat) (suffix : String)
  | other (code : Nat)
deriving DecidableEq

/-- The value a supplied property field receives in the emitted struct
literal: percent literals become `Percent(value).into()`, every other
expression becomes `(expr).into()` (the Into conversion is kept abstract,
tagged by `intoVal`). -/
inductive PropVal where
  | percent (value : Int) (scale : Nat)
  | intoVal (e : PropExpr)
deriving DecidableEq

/-- The per-field conversion performed at lines 75 to 92 of
src/packages/iocraft-macros/src/lib.rs: an int or float literal whose suffix
is `pct` becomes a Percent, anything else goes through `.into()`. -/
def convertProp : PropExpr → PropVal
  | .litInt v s => if s = "pct" then .percent v 0 else .intoVal (.litInt v s)
  | .litFloat v sc s => if s = "pct" then .percent v sc else .intoVal (.litFloat v sc s)
  | .other c => .intoVal (.other c)

/-- The constructed element value: type tag, key, the explicitly supplied
(converted) property fields of the emitted struct literal (the remaining
fields come from `..Default::default()`), and the child list held by
`props.children`. -/
inductive Element where
  | mk (ty : String) (key : Nat) (props : List (String × PropVal))
      (children : List Element)

def Element.ty : Element → String
  | .mk t _ _ _ => t

def Element.key : Element → Nat
  | .mk _ k _ _ => k

def Element.props : Element → List (String × PropVal)
  | .mk _ _ p _ => p

def Element.children : Element → List Element
  | .mk _ _ _ c => c

mutual
/-- The parse result of one element declaration (`Parse for ParsedElement`,
lines 30 to 69): a type path, the parenthesised property list, and the braced
children. -/
inductive ParsedElement : Type where
  | mk (ty : String) (props : List (String × PropExpr))
      (children : List ParsedElementChild)
/-- A child of an element declaration: either a nested element declaration,
or a pass-through expression (written with a leading hash); the expression is
modelled by the sequence of elements it evaluates to. -/
inductive ParsedElementChild : Type where
  | element (e : ParsedElement)
  | expr (es : List Element)
end

def ParsedElement.tyOf : ParsedElement → String
  | .mk t _ _ => t

def ParsedElement.propsList : ParsedElement → List (String × PropExpr)
  | .mk _ p _ => p

def ParsedElement.childrenList : ParsedElement → List ParsedElementChild
  | .mk _ _ c => c

/-- Modelled from the spec: `extend_with_elements` lives in the iocraft crate
and is not under src/.  Per the spec (section 4.1), children supplied as
nested Elements or as pass-through sequences are flattened into the parent
child list, preserving relative order — so extending appends the new elements
at the end. -/
def extend_with_elements (children new : List Element) : List Element :=
  children ++ new

mutual
/-- Evaluation of the code emitted by `ToTokens for ParsedElement` (lines 71
to 121): the key field is set to `Default::default()` (modelled as 0), every
supplied property is converted by `convertProp` and placed in the struct
literal, and each declared child is then appended to `props.children` (which
`..Default::default()` initialised to the empty list) via
`extend_with_elements`, in declaration order. -/
def ParsedElement.construct : ParsedElement → Element
  | .mk ty props children =>
      .mk ty 0 (props.map fun p => (p.1, convertProp p.2)) (setChildren [] children)
/-- The per-child extension loop of the emitted code: one
`extend_with_elements` call per declared child, in declaration order. -/
def setChildren : List Element → List ParsedElementChild → List Element
  | acc, [] => acc
  | acc, c :: cs => setChildren (extend_with_elements acc (childElements c)) cs
/-- The elements one declared child contributes: a nested element declaration
contributes the single element its own expansion constructs; a pass-through
expression contributes the sequence it evaluates to. -/
def childElements : ParsedElementChild → List Element
  | .element e => [e.construct]
  | .expr es => es
end

/-- The merged view of the property bundle of a constructed element: an
explicitly supplied field takes its value from the struct literal, every
other field comes from `..Default::default()`, abstracted as a `defaults`
assignment. -/
def Element.mergedProp (defaults : String → PropVal) (e : Element)
    (name : String) : PropVal :=
  (((Element.props e).find? (fun p => p.1 = name)).map Prod.snd).getD (defaults name)

/-- Unfolding the child-extension loop: starting from `acc`, the loop appends
the flattened contributions of the declared children in declaration order. -/
theorem setChildren_eq_append (cs : List ParsedElementChild) (acc : List Element) :
    setChildren acc cs = acc ++ (cs.map childElements).flatten := by
  induction cs generalizing acc with
  | nil => simp [setChildren]
  | cons c cs ih => simp [setChildren, extend_with_elements, ih]

/-- A concrete element declaration that supplies a `key` property:
`MyComponent(key: expr1)`. -/
def pe0 : ParsedElement := .mk "MyComponent" [("key", .other 1)] []

/-- A concrete element declaration with two supplied properties and no
children: `Text(color: expr1, content: expr2)`. -/
def pe1 : ParsedElement :=
  .mk "Text" [("color", .other 1), ("content", .other 2)] []

/-- A concrete defaults assignment for property bundles, used to instantiate
the merge theorem. -/
def defaultProps : String → PropVal :=
  fun _ => PropVal.intoVal (PropExpr.other 0)

/-! ## The Text leaf component — src/packages/io/src/components/text.rs -/

/-- crossterm Color, opaque to the embedded code. -/
def Color : Type := Nat

/-- The part of crossterm ContentStyle this code touches:
`ContentStyle::new()` starts with no foreground color, and `set_props`
assigns `foreground_color`. -/
structure ContentStyle where
  foreground_color : Option Color

def ContentStyle.new : ContentStyle := ⟨Option.none⟩

/-- `TextProps { color: Option<Color>, content: String }` with derived
Default. -/
structure TextProps where
  color : Option Color
  content : String

def TextProps.default : TextProps := ⟨Option.none, ""⟩

/-- `Text { style: ContentStyle, content: String }`. -/
structure Text where
  style : ContentStyle
  content : String

/-- `fn set_props(&mut self, props)`: assigns the foreground color from
`props.color` and replaces the content string. -/
def Text.set_props (t : Text) (props : TextProps) : Text :=
  { style := { t.style with foreground_color := props.color },
    content := props.content }

/-- `fn new(props) -> Self`: starts from `ContentStyle::new()` and the empty
string, then applies `set_props`. -/
def Text.new (props : TextProps) : Text :=
  Text.set_props ⟨ContentStyle.new, ""⟩ props

/-- Requested size reported by a measure function.  In the source the fields
are f32 values produced from a usize length and the literal 1.0; the values
that actually occur are exact nonnegative integers, modelled as Nat. -/
structure Size where
  width : Nat
  height : Nat
deriving DecidableEq

/-- A measure function maps the available width/height constraints (the three
parameters the source closure receives and ignores) to a requested size. -/
def MeasureFunc : Type := Nat → Nat → Nat → Size

/-- The closure `move |_, _, _| Size { width, height: 1.0 }` built by
`Text::update` is constant in all three parameters. -/
def constMeasure (s : Size) : MeasureFunc :=
  fun _ _ _ => s

/-- Modelled from the spec: `ComponentUpdater` lives in the iocraft crate and
is not under src/.  Per the spec (sections 4.4 and 6), it receives the
measurement callback a leaf component registers, and the child Elements a
composite component registers for recursion; the embedding records the
registered measure function and a log of the `update_children` calls. -/
structure ComponentUpdater where
  measure_func : Option MeasureFunc
  child_updates : List (List Element)

/-- Modelled from the spec: registering the measurement callback of a leaf
component (spec section 4.4, item 6). -/
def ComponentUpdater.set_measure_func (u : ComponentUpdater) (f : MeasureFunc) :
    ComponentUpdater :=
  { u with measure_func := some f }

/-- Modelled from the spec: a composite component registers its produced
child Elements with the Updater, which recurses into them (spec section 4.4,
item 4).  The embedding appends the registered list to a log. -/
def ComponentUpdater.update_children (u : ComponentUpdater) (es : List Element) :
    ComponentUpdater :=
  { u with child_updates := u.child_updates ++ [es] }

/-- A fresh updater: no measure function registered, no children registered. -/
def ComponentUpdater.empty : ComponentUpdater := ⟨Option.none, []⟩

/-- `fn update(&self, updater)` of Text: computes `width = content.len()`
(the UTF-8 byte length of the content string; the f32 conversion of the
source is exact on these values) and registers the constant measure function
returning that width and height 1. -/
def Text.update (t : Text) (updater : ComponentUpdater) : ComponentUpdater :=
  updater.set_measure_func (constMeasure ⟨t.content.utf8ByteSize, 1⟩)

/-! ## The component expansion — src/packages/iocraft-macros/src/lib.rs

`ToTokens for ParsedComponent` (lines 436 to 482) emits

    fn update(&mut self, props, hooks, updater) {
        let mut e = { Self::implementation(args).into() };
        updater.update_children([&mut e], None);
    }

The implementation function and its inputs (props, hooks, context
references) are abstracted by a function from an input type P to the element
it produces; the Into conversion to a type-erased element is absorbed by the
uniform Element type of the embedding. -/
def component_update {P : Type} (implementation : P → Element) (props : P)
    (u : ComponentUpdater) : ComponentUpdater :=
  let e := implementation props
  u.update_children [e]

/-! ## Theorems for the claims -/

/-- C9: the default state of a Handler is unset: the default-constructed
Handler satisfies `is_none = true`, and `is_none` returns true exactly when
the handler holds no callable. -/
theorem handler_default_is_unset (C T : Type) :
    (Handler.default C T).is_none = true
    ∧ ∀ h : Handler C T, (h.is_none = true ↔ h = Handler.none) := by
  refine ⟨rfl, fun h => ?_⟩
  cases h <;> simp [Handler.is_none]

/-- C8: constructing a Handler from an invocable value is a pure conversion
with no side effect: the resulting handler stores the callable unchanged (so
the callable was not invoked and its state not advanced), and the handler is
set (`is_none` returns false). -/
theorem handler_from_pure_conversion {C T : Type} (f : C) :
    (Handler.fromFn f : Handler C T) = Handler.function f
    ∧ (Handler.fromFn f : Handler C T).is_none = false :=
  ⟨rfl, rfl⟩

/-- C3: invoking an unset Handler is a no-op: it makes no call to any
callable and leaves the handler unset (and the model is a total function, so
no error is possible); invoking a set Handler calls the stored callable with
exactly the argument v, once. -/
theorem handler_invoke_spec {C T : Type} (step : C → T → C) (v : T) (f : C) :
    Handler.invoke step (Handler.none : Handler C T) v = (Handler.none, [])
    ∧ Handler.invoke step (Handler.function f) v
      = (Handler.function (step f v), [⟨f, v⟩]) :=
  ⟨rfl, rfl⟩

/-- C2: `take` replaces the slot with the unset state and returns the
previous content as an owned value; when the handler was set, invoking what
is left in the original slot is a no-op (no call is made), while invoking the
taken value calls the original callable exactly once, with the given
argument. -/
theorem handler_take_clears_and_fires_once {C T : Type} (step : C → T → C)
    (h : Handler C T) (f : C) (v : T) (hset : h = Handler.function f) :
    h.take = (h, Handler.none)
    ∧ Handler.invoke step h.take.2 v = (Handler.none, [])
    ∧ (Handler.invoke step h.take.1 v).2 = [⟨f, v⟩] := by
  subst hset
  exact ⟨rfl, rfl, rfl⟩

/-- Witness for C2 at a concrete handler: the closure state is the number 7,
the step function never changes it, and the argument is 3. -/
theorem handler_take_clears_and_fires_once_witness :
    (Handler.function 7 : Handler Nat Nat).take = (Handler.function 7, Handler.none)
    ∧ Handler.invoke idStep (Handler.function 7 : Handler Nat Nat).take.2 3
      = (Handler.none, [])
    ∧ (Handler.invoke idStep (Handler.function 7 : Handler Nat Nat).take.1 3).2
      = [⟨7, 3⟩] :=
  handler_take_clears_and_fires_once idStep (Handler.function 7) 7 3 rfl

/-- C1 counterexample: for the declaration `MyComponent(key: expr1)` the
claim says the supplied key is extracted into the Element key and does not
appear in the merged property bundle.  The emitted code does neither: the
`key` field stays in the property struct literal like any other supplied
field, and the Element key is the default value 0, not the supplied one. -/
theorem element_key_extraction_cex :
    "key" ∈ ((ParsedElement.construct pe0).props.map Prod.fst)
    ∧ (ParsedElement.construct pe0).key = 0 := by
  decide

/-- C1 amended: no key extraction happens in element construction: for every
element declaration, the Element key is always the default value 0 (whether
or not a `key` property is supplied), and every supplied property — a
supplied `key` included — is passed through, converted, into the property
struct literal. -/
theorem element_key_always_default (pe : ParsedElement) :
    (ParsedElement.construct pe).key = 0
    ∧ (ParsedElement.construct pe).props
      = (ParsedElement.propsList pe).map (fun p => (p.1, convertProp p.2)) := by
  obtain ⟨ty, props, children⟩ := pe
  exact ⟨rfl, rfl⟩

/-- C6: the children of a constructed element are exactly the flattened
contributions of the declared children — nested element declarations and
pass-through expression sequences alike — concatenated in declaration order,
which preserves the relative order of every pair of children. -/
theorem element_children_flattened_in_order (pe : ParsedElement) :
    (ParsedElement.construct pe).children
      = ((ParsedElement.childrenList pe).map childElements).flatten := by
  obtain ⟨ty, props, children⟩ := pe
  simp [ParsedElement.construct, ParsedElement.childrenList, Element.children,
    setChildren_eq_append]

/-- C7: element construction merges supplied fields over the bundle defaults:
when the supplied field names are distinct (as Rust enforces for a struct
literal), a supplied field reads back as its supplied, converted value, and a
field that was not supplied reads back as the bundle default. -/
theorem element_props_merge_defaults (defaults : String → PropVal)
    (pe : ParsedElement) (name : String) (ex : PropExpr)
    (hnodup : ((ParsedElement.propsList pe).map Prod.fst).Nodup) :
    ((name, ex) ∈ ParsedElement.propsList pe →
      Element.mergedProp defaults (ParsedElement.construct pe) name = convertProp ex)
    ∧ (name ∉ (ParsedElement.propsList pe).map Prod.fst →
      Element.mergedProp defaults (ParsedElement.construct pe) name = defaults name) := by
  obtain ⟨ty, props, children⟩ := pe
  simp only [ParsedElement.propsList] at hnodup ⊢
  constructor
  · intro hmem
    induction props with
    | nil => simp at hmem
    | cons p ps ih =>
      simp only [List.map_cons, List.nodup_cons] at hnodup
      rcases List.mem_cons.mp hmem with h | h
      · subst h
        simp [Element.mergedProp, ParsedElement.construct, Element.props, List.find?]
      · have hne : p.1 ≠ name := by
          intro he
          exact hnodup.1 (he ▸ (List.mem_map.mpr ⟨(name, ex), h, rfl⟩))
        have hih := ih hnodup.2 h
        simp only [Element.mergedProp, ParsedElement.construct, Element.props,
          List.map_cons, List.find?] at hih ⊢
        simp [hne] at hih ⊢
        exact hih
  · intro hnot
    induction props with
    | nil =>
      simp [Element.mergedProp, ParsedElement.construct, Element.props, List.find?]
    | cons p ps ih =>
      simp only [List.map_cons, List.nodup_cons] at hnodup
      simp only [List.map_cons, List.mem_cons] at hnot
      push_neg at hnot
      have hih := ih hnodup.2 hnot.2
      simp only [Element.mergedProp, ParsedElement.construct, Element.props,
        List.map_cons, List.find?] at hih ⊢
      simp [Ne.symm hnot.1] at hih ⊢
      exact hih

/-- Witness for C7 at the concrete declaration
`Text(color: expr1, content: expr2)`: the supplied `color` field reads back
as its converted supplied value, and the unsupplied `width` field reads back
as the bundle default. -/
theorem element_props_merge_defaults_witness :
    Element.mergedProp defaultProps (ParsedElement.construct pe1) "color"
      = convertProp (PropExpr.other 1)
    ∧ Element.mergedProp defaultProps (ParsedElement.construct pe1) "width"
      = defaultProps "width" :=
  ⟨(element_props_merge_defaults defaultProps pe1 "color" (PropExpr.other 1)
      (by decide)).1 (by decide),
   (element_props_merge_defaults defaultProps pe1 "width" (PropExpr.other 1)
      (by decide)).2 (by decide)⟩

/-- C5: a Text leaf whose content is the string "hi" registers a measure
function that, whatever the available constraints, returns width 2 and
height 1. -/
theorem text_hi_measures_two_by_one (t : Text) (u : ComponentUpdater)
    (a b c : Nat) (h : t.content = "hi") :
    (Text.update t u).measure_func = some (constMeasure ⟨2, 1⟩)
    ∧ constMeasure ⟨2, 1⟩ a b c = ⟨2, 1⟩ := by
  have hb : t.content.utf8ByteSize = 2 := by rw [h]; rfl
  exact ⟨by simp [Text.update, ComponentUpdater.set_measure_func, hb], rfl⟩

/-- Witness for C5: the Text built from props with content "hi", a fresh
updater, and the concrete constraints 80, 24, 0. -/
theorem text_hi_measures_two_by_one_witness :
    (Text.update (Text.new ⟨Option.none, "hi"⟩) ComponentUpdater.empty).measure_func
      = some (constMeasure ⟨2, 1⟩)
    ∧ constMeasure ⟨2, 1⟩ 80 24 0 = ⟨2, 1⟩ :=
  text_hi_measures_two_by_one (Text.new ⟨Option.none, "hi"⟩)
    ComponentUpdater.empty 80 24 0 rfl

/-- C10: for every Text component, the registered measure function ignores
the constraints and returns width equal to the UTF-8 byte length of the
content string and height exactly 1; on the two-byte, one-character content
"é" the reported width is the byte count 2, confirming that multi-byte
characters count once per byte. -/
theorem text_measure_is_byte_length (t : Text) (u : ComponentUpdater)
    (a b c : Nat) :
    (Text.update t u).measure_func
      = some (constMeasure ⟨t.content.utf8ByteSize, 1⟩)
    ∧ constMeasure ⟨t.content.utf8ByteSize, 1⟩ a b c
      = ⟨t.content.utf8ByteSize, 1⟩
    ∧ (Text.update (Text.new ⟨Option.none, "é"⟩) u).measure_func
      = some (constMeasure ⟨2, 1⟩) :=
  ⟨rfl, rfl, rfl⟩

/-- C4: the update function emitted by the component expansion registers,
with the Updater and before returning, exactly one child list holding the
single Element produced by the implementation of the component — on every
invocation, whatever the props and the prior updater state. -/
theorem component_update_registers_child {P : Type} (implementation : P → Element)
    (props : P) (u : ComponentUpdater) :
    (component_update implementation props u).child_updates
      = u.child_updates ++ [[implementation props]] :=
  rfl

end Iocraft
